import Mathlib

/-
Verification of the gameweek lifecycle and scoring engine of a
fantasy-soccer application.  The definitions below are shallow embeddings
of the corresponding source functions:

* calculatePlayerPoints    — src/src/components/simulation/LiveMatchSimulation.tsx
* calculate_fantasy_team_points, finalize_gameweek
                           — src/supabase/migrations/20250617152340_foggy_dune.sql
* calculateTeamPointsManual — src/src/components/admin/GameweekManager.tsx
* update_gameweek_status, transfers_allowed — SQL migration adding gameweek columns
* makeTransfer             — the useTransfers hook

Database tables are modelled as Lean lists in row order; SQL NULL values
become Option; plpgsql loops become folds over those lists.
-/

/-- Player position, the `position` column of the players table. -/
inductive Position where
  | GK
  | DEF
  | MID
  | FWD
deriving DecidableEq, Repr

/-- Raw per-gameweek stat line of one player, as accumulated by the live
match simulation (the PlayerStats record of LiveMatchSimulation.tsx). -/
structure SimPlayerStats where
  minutes_played : Nat
  goals : Nat
  assists : Nat
  clean_sheet : Bool
  yellow_cards : Nat
  red_cards : Nat
  saves : Nat
  penalty_saves : Nat
  penalty_misses : Nat
  own_goals : Nat
  goals_conceded : Nat
  bonus_points : Int
deriving DecidableEq, Repr

/-- Goal points by position, the switch statement of calculatePlayerPoints. -/
def goalMultiplier (pos : Position) : Int :=
  match pos with
  | .GK => 10
  | .DEF => 6
  | .MID => 5
  | .FWD => 4

/-- Embeds calculatePlayerPoints (LiveMatchSimulation.tsx, lines 191-263)
up to but not including the final Math.max(0, points) clamp.  Each mutation
of the local variable points becomes a let rebinding, in source order. -/
def rawPlayerPoints (stats : SimPlayerStats) (pos : Position) : Int :=
  let points : Int := 0
  let points :=
    if stats.minutes_played > 0 ∧ stats.minutes_played < 60 then points + 1
    else if stats.minutes_played ≥ 60 then points + 2
    else points
  let points :=
    if stats.goals > 0 then points + (stats.goals : Int) * goalMultiplier pos
    else points
  let points := points + (stats.assists : Int) * 3
  let points :=
    if stats.clean_sheet then
      if pos = .GK ∨ pos = .DEF then points + 4
      else if pos = .MID then points + 1
      else points
    else points
  let points :=
    if pos = .GK then
      points + ((stats.saves / 3 : Nat) : Int) + (stats.penalty_saves : Int) * 5
        - ((stats.goals_conceded / 2 : Nat) : Int)
    else points
  let points :=
    if pos = .DEF then points - ((stats.goals_conceded / 2 : Nat) : Int)
    else points
  let points := points - (stats.penalty_misses : Int) * 2
  let points := points - (stats.yellow_cards : Int) * 1
  let points := points - (stats.red_cards : Int) * 3
  let points := points - (stats.own_goals : Int) * 2
  let points := points + stats.bonus_points
  points

/-- Embeds calculatePlayerPoints including the final clamp to a minimum of 0. -/
def calculatePlayerPoints (stats : SimPlayerStats) (pos : Position) : Int :=
  max 0 (rawPlayerPoints stats pos)

/-- Clean-sheet award by position as written in the source: GK and DEF get 4,
MID gets 1, FWD gets nothing. -/
def cleanSheetBonus (pos : Position) : Int :=
  match pos with
  | .GK => 4
  | .DEF => 4
  | .MID => 1
  | .FWD => 0

/-- A stat line with clean sheet set, zero minutes and nothing else, used to
exercise the clean-sheet rule in isolation. -/
def c4Stat : SimPlayerStats :=
  ⟨0, 0, 0, true, 0, 0, 0, 0, 0, 0, 0, 0⟩

/-- Helper to flip only the clean_sheet field of a stat line. -/
def setCleanSheet (stats : SimPlayerStats) (b : Bool) : SimPlayerStats :=
  { stats with clean_sheet := b }

/-- C4 counterexample: the claim says a player with cleanSheet true but
minutesPlayed = 0 receives no clean-sheet points, so this goalkeeper stat
line (0 minutes, clean sheet, nothing else) would have to score 0; the code
awards the 4 clean-sheet points regardless of minutes and returns 4. -/
theorem C4_counterexample :
    calculatePlayerPoints c4Stat Position.GK = 4 ∧ (4 : Int) ≠ 0 := by
  constructor
  · decide
  · decide

/-- C4 amended: clean-sheet points (+4 for GK or DEF, +1 for MID, +0 for FWD)
are awarded exactly when cleanSheet is true, with no minutesPlayed condition:
for every stat line, setting cleanSheet adds exactly cleanSheetBonus to the
pre-clamp score, including when minutesPlayed = 0. -/
theorem C4_amended :
    ∀ (stats : SimPlayerStats) (pos : Position),
      rawPlayerPoints (setCleanSheet stats true) pos
        = rawPlayerPoints (setCleanSheet stats false) pos + cleanSheetBonus pos := by
  intro stats pos
  cases pos <;> cases stats <;>
    simp [rawPlayerPoints, setCleanSheet, cleanSheetBonus, goalMultiplier] <;>
    split_ifs <;> ring

/-- One row of the gameweek_scores table as read by the team points
calculators (COALESCE defaults are applied at lookup). -/
structure GameweekScore where
  total_points : Int
  minutes_played : Nat
deriving DecidableEq, Repr

/-- The gameweek_scores table, keyed by (player_id, gameweek). -/
abbrev ScoreTable := List ((Nat × Nat) × GameweekScore)

/-- Lookup of the score row of a player for a gameweek (the LEFT JOIN). -/
def lookupScore (scores : ScoreTable) (pid gw : Nat) : Option GameweekScore :=
  (scores.find? (fun e => e.1 == (pid, gw))).map (fun e => e.2)

/-- COALESCE(gs.total_points, 0). -/
def scorePoints (scores : ScoreTable) (pid gw : Nat) : Int :=
  match lookupScore scores pid gw with
  | some s => s.total_points
  | none => 0

/-- COALESCE(gs.minutes_played, 0). -/
def scoreMinutes (scores : ScoreTable) (pid gw : Nat) : Nat :=
  match lookupScore scores pid gw with
  | some s => s.minutes_played
  | none => 0

/-- One row of the rosters table (joined with players for the position),
in roster listing order. -/
structure RosterEntry where
  player_id : Nat
  position : Position
  is_starter : Bool
  is_captain : Bool
  is_vice_captain : Bool
deriving DecidableEq, Repr

/-- Eligibility filter of the substitute query in
calculate_fantasy_team_points: bench row, same position, played minutes. -/
def isEligibleSub (scores : ScoreTable) (gw : Nat) (pos : Position)
    (r : RosterEntry) : Bool :=
  decide (r.is_starter = false ∧ r.position = pos ∧ 0 < scoreMinutes scores r.player_id gw)

/-- One step of ORDER BY gs2.total_points DESC LIMIT 1: keep the candidate
with the larger total_points, the earlier-listed one on ties. -/
def betterSub (scores : ScoreTable) (gw : Nat)
    (best : Option RosterEntry) (r : RosterEntry) : Option RosterEntry :=
  match best with
  | none => some r
  | some b =>
    if scorePoints scores r.player_id gw > scorePoints scores b.player_id gw then some r
    else some b

/-- Embeds the substitute query of calculate_fantasy_team_points (SQL lines
183-197): among bench rows of the same position with minutes played, the one
with maximal total_points.  The SQL leaves the order of ties unspecified;
ties are modelled as first-listed-wins. -/
def chooseSubSql (roster : List RosterEntry) (scores : ScoreTable) (gw : Nat)
    (pos : Position) : Option RosterEntry :=
  (roster.filter (isEligibleSub scores gw pos)).foldl (betterSub scores gw) none

/-- Accumulator of the plpgsql loop: total_points and captain_points. -/
structure CalcAcc where
  total : Int
  captain_points : Int
deriving DecidableEq, Repr

/-- Loop body of calculate_fantasy_team_points (SQL lines 179-218) for one
roster row.  The loop ORDER BY only fixes the traversal order; the fold here
runs in roster listing order. -/
def sqlLoopStep (roster : List RosterEntry) (scores : ScoreTable) (gw : Nat)
    (acc : CalcAcc) (r : RosterEntry) : CalcAcc :=
  if r.is_starter then
    if scoreMinutes scores r.player_id gw = 0 then
      match chooseSubSql roster scores gw r.position with
      | some s =>
        { total := acc.total + scorePoints scores s.player_id gw,
          captain_points :=
            if r.is_captain then scorePoints scores s.player_id gw
            else acc.captain_points }
      | none => acc
    else
      { total := acc.total + scorePoints scores r.player_id gw,
        captain_points :=
          if r.is_captain then scorePoints scores r.player_id gw
          else acc.captain_points }
  else acc

/-- SELECT player_id FROM rosters WHERE is_vice_captain = true. -/
def viceCaptainId (roster : List RosterEntry) : Option Nat :=
  (roster.find? (fun r => r.is_vice_captain)).map (fun r => r.player_id)

/-- Embeds calculate_fantasy_team_points (SQL migration, lines 141-236):
the starter loop followed by the captain multiplier block.  When
captain_points is not positive the code falls back to the vice captain; the
SELECT INTO yields NULL when the vice captain has no score row, and
NULL > 0 is not true, so no bonus is added in that case. -/
def calculate_fantasy_team_points (roster : List RosterEntry)
    (scores : ScoreTable) (gw : Nat) : Int :=
  let acc := roster.foldl (sqlLoopStep roster scores gw) ⟨0, 0⟩
  if acc.captain_points > 0 then acc.total + acc.captain_points
  else
    match viceCaptainId roster with
    | some vid =>
      match lookupScore scores vid gw with
      | some s => if s.total_points > 0 then acc.total + s.total_points else acc.total
      | none => acc.total
    | none => acc.total

/-- Embeds roster.find of calculateTeamPointsManual (GameweekManager.tsx,
lines 305-308): the first-listed bench row of the same position, with no
minutes condition in the search itself. -/
def manualChooseSub (roster : List RosterEntry) (pos : Position) :
    Option RosterEntry :=
  roster.find? (fun r => decide (r.is_starter = false ∧ r.position = pos))

/-- Loop body of calculateTeamPointsManual (GameweekManager.tsx, lines
288-334) for one roster row: the found substitute is used only if that
single candidate has minutes, and the captain bonus variable is assigned
with no positivity check. -/
def manualLoopStep (roster : List RosterEntry) (scores : ScoreTable) (gw : Nat)
    (acc : CalcAcc) (r : RosterEntry) : CalcAcc :=
  if r.is_starter then
    if scoreMinutes scores r.player_id gw = 0 then
      match manualChooseSub roster r.position with
      | some s =>
        if 0 < scoreMinutes scores s.player_id gw then
          { total := acc.total + scorePoints scores s.player_id gw,
            captain_points :=
              if r.is_captain then scorePoints scores s.player_id gw
              else acc.captain_points }
        else acc
      | none => acc
    else
      { total := acc.total + scorePoints scores r.player_id gw,
        captain_points :=
          if r.is_captain then scorePoints scores r.player_id gw
          else acc.captain_points }
  else acc

/-- Embeds calculateTeamPointsManual (GameweekManager.tsx, lines 271-340):
the loop followed by the unconditional totalPoints += captainPoints, with no
vice-captain fallback. -/
def calculateTeamPointsManual (roster : List RosterEntry)
    (scores : ScoreTable) (gw : Nat) : Int :=
  let acc := roster.foldl (manualLoopStep roster scores gw) ⟨0, 0⟩
  acc.total + acc.captain_points

/-- Roster for the substitution-order example: one starting forward who did
not play, and two bench forwards in listing order player 2 then player 3. -/
def roster1 : List RosterEntry :=
  [⟨1, Position.FWD, true, false, false⟩,
   ⟨2, Position.FWD, false, false, false⟩,
   ⟨3, Position.FWD, false, false, false⟩]

/-- Scores for roster1 in gameweek 1: both bench forwards played, the
first-listed one (player 2) scored 3 and the later-listed one (player 3)
scored 5; the starter has no row. -/
def scores1 : ScoreTable :=
  [((2, 1), ⟨3, 90⟩), ((3, 1), ⟨5, 90⟩)]

/-- C1 counterexample: the claim says the substitute used is the
first-listed bench player of the same position with minutes played, here
player 2 with score 3, giving a team total of 3.  The database procedure
instead selects by highest total_points: it picks player 3 and returns 5. -/
theorem C1_counterexample :
    (roster1.find? (isEligibleSub scores1 1 Position.FWD)).map
        (fun r => r.player_id) = some 2
    ∧ (chooseSubSql roster1 scores1 1 Position.FWD).map
        (fun r => r.player_id) = some 3
    ∧ calculate_fantasy_team_points roster1 scores1 1 = 5
    ∧ scorePoints scores1 2 1 = 3
    ∧ (5 : Int) ≠ 3 := by
  refine ⟨by decide, by decide, by decide, by decide, by decide⟩

/-- Roster for the reuse example: two starting forwards who did not play and
a single bench forward. -/
def roster2 : List RosterEntry :=
  [⟨1, Position.FWD, true, false, false⟩,
   ⟨2, Position.FWD, true, false, false⟩,
   ⟨3, Position.FWD, false, false, false⟩]

/-- Scores for roster2 in gameweek 1: only the bench forward played,
scoring 5. -/
def scores2 : ScoreTable := [((3, 1), ⟨5, 90⟩)]

/-- C2 counterexample: the claim says a bench player substitutes for at most
one starter, so with a single eligible bench forward (5 points) the team
total would be 5; the database procedure runs an independent substitute
query per starter, counts player 3 for both starters, and returns 10. -/
theorem C2_counterexample :
    calculate_fantasy_team_points roster2 scores2 1 = 10
    ∧ scorePoints scores2 3 1 = 5
    ∧ (roster2.filter (isEligibleSub scores2 1 Position.FWD)).length = 1
    ∧ (10 : Int) ≠ 5 := by
  refine ⟨by decide, by decide, by decide, by decide⟩

/-- Roster for the captaincy example: a starting captain (player 1) and a
starting vice captain (player 2). -/
def roster3 : List RosterEntry :=
  [⟨1, Position.FWD, true, true, false⟩,
   ⟨2, Position.FWD, true, false, true⟩]

/-- Scores for roster3 in gameweek 1: the captain played the full match but
scored 0 points; the vice captain played and scored 5. -/
def scores3 : ScoreTable := [((1, 1), ⟨0, 90⟩), ((2, 1), ⟨5, 90⟩)]

/-- Characterization of what one roster row adds to total_points in the
database procedure loop: starters contribute their own points when they
played, otherwise the points of the queried substitute (0 if none); bench
rows contribute nothing. -/
def contribSql (roster : List RosterEntry) (scores : ScoreTable) (gw : Nat)
    (r : RosterEntry) : Int :=
  if r.is_starter then
    if scoreMinutes scores r.player_id gw = 0 then
      match chooseSubSql roster scores gw r.position with
      | some s => scorePoints scores s.player_id gw
      | none => 0
    else scorePoints scores r.player_id gw
  else 0

/-- Characterization of the captain_points assignment a roster row performs
in the database procedure loop, none when the row leaves it untouched. -/
def capAssignSql (roster : List RosterEntry) (scores : ScoreTable) (gw : Nat)
    (r : RosterEntry) : Option Int :=
  if r.is_starter then
    if scoreMinutes scores r.player_id gw = 0 then
      match chooseSubSql roster scores gw r.position with
      | some s =>
        if r.is_captain then some (scorePoints scores s.player_id gw) else none
      | none => none
    else if r.is_captain then some (scorePoints scores r.player_id gw) else none
  else none

/-- Last assignment performed while traversing a list front to back:
the assignment of the latest row that makes one. -/
def lastAssign (f : RosterEntry → Option Int) : List RosterEntry → Option Int
  | [] => none
  | r :: rs =>
    match lastAssign f rs with
    | some v => some v
    | none => f r

/-- The captain_points value the database procedure loop ends with when
started from 0: the score of the captain (or of the captain substitute),
0 when no row assigns it. -/
def captainEffectiveScore (roster : List RosterEntry) (scores : ScoreTable)
    (gw : Nat) : Int :=
  (lastAssign (capAssignSql roster scores gw) roster).getD 0

/-- The single (non-doubled) bonus the vice-captain fallback of the database
procedure adds: the vice captain score row points when positive, else 0. -/
def vcFallbackBonus (roster : List RosterEntry) (scores : ScoreTable)
    (gw : Nat) : Int :=
  match viceCaptainId roster with
  | some vid =>
    match lookupScore scores vid gw with
    | some s => if s.total_points > 0 then s.total_points else 0
    | none => 0
  | none => 0

/-- Characterization of what one roster row adds to totalPoints in the
client-side manual fallback: for a non-playing starter, only the first-listed
bench row of the same position is consulted, and it counts only when that
single candidate has minutes. -/
def contribManual (roster : List RosterEntry) (scores : ScoreTable) (gw : Nat)
    (r : RosterEntry) : Int :=
  if r.is_starter then
    if scoreMinutes scores r.player_id gw = 0 then
      match manualChooseSub roster r.position with
      | some s =>
        if 0 < scoreMinutes scores s.player_id gw then
          scorePoints scores s.player_id gw
        else 0
      | none => 0
    else scorePoints scores r.player_id gw
  else 0

/-- Characterization of the captainPoints assignment of one roster row in
the client-side manual fallback. -/
def capAssignManual (roster : List RosterEntry) (scores : ScoreTable) (gw : Nat)
    (r : RosterEntry) : Option Int :=
  if r.is_starter then
    if scoreMinutes scores r.player_id gw = 0 then
      match manualChooseSub roster r.position with
      | some s =>
        if 0 < scoreMinutes scores s.player_id gw then
          if r.is_captain then some (scorePoints scores s.player_id gw) else none
        else none
      | none => none
    else if r.is_captain then some (scorePoints scores r.player_id gw) else none
  else none

/-- The captainPoints value the manual loop ends with when started from 0. -/
def manualCaptainScore (roster : List RosterEntry) (scores : ScoreTable)
    (gw : Nat) : Int :=
  (lastAssign (capAssignManual roster scores gw) roster).getD 0

theorem sqlLoopStep_eq (roster : List RosterEntry) (scores : ScoreTable)
    (gw : Nat) (acc : CalcAcc) (r : RosterEntry) :
    sqlLoopStep roster scores gw acc r =
      ⟨acc.total + contribSql roster scores gw r,
       (capAssignSql roster scores gw r).getD acc.captain_points⟩ := by
  unfold sqlLoopStep contribSql capAssignSql
  by_cases hs : r.is_starter
  · simp only [hs, if_true]
    by_cases hm : scoreMinutes scores r.player_id gw = 0
    · simp only [hm, if_true]
      cases chooseSubSql roster scores gw r.position with
      | none => simp
      | some s =>
        by_cases hc : r.is_captain <;> simp [hc]
    · simp only [hm, if_false]
      by_cases hc : r.is_captain <;> simp [hc]
  · simp [hs]

theorem manualLoopStep_eq (roster : List RosterEntry) (scores : ScoreTable)
    (gw : Nat) (acc : CalcAcc) (r : RosterEntry) :
    manualLoopStep roster scores gw acc r =
      ⟨acc.total + contribManual roster scores gw r,
       (capAssignManual roster scores gw r).getD acc.captain_points⟩ := by
  unfold manualLoopStep contribManual capAssignManual
  by_cases hs : r.is_starter
  · simp only [hs, if_true]
    by_cases hm : scoreMinutes scores r.player_id gw = 0
    · simp only [hm, if_true]
      cases manualChooseSub roster r.position with
      | none => simp
      | some s =>
        by_cases hp : 0 < scoreMinutes scores s.player_id gw
        · by_cases hc : r.is_captain <;> simp [hp, hc]
        · simp [hp]
    · simp only [hm, if_false]
      by_cases hc : r.is_captain <;> simp [hc]
  · simp [hs]

theorem foldl_total_eq (step : CalcAcc → RosterEntry → CalcAcc)
    (contrib : RosterEntry → Int) (cap : RosterEntry → Option Int)
    (hstep : ∀ acc r, step acc r =
      ⟨acc.total + contrib r, (cap r).getD acc.captain_points⟩) :
    ∀ (l : List RosterEntry) (acc : CalcAcc),
      (l.foldl step acc).total = acc.total + (l.map contrib).sum := by
  intro l
  induction l with
  | nil => intro acc; simp
  | cons r rs ih =>
    intro acc
    simp only [List.foldl_cons, List.map_cons, List.sum_cons, hstep, ih]
    ring

theorem foldl_cap_eq (step : CalcAcc → RosterEntry → CalcAcc)
    (contrib : RosterEntry → Int) (cap : RosterEntry → Option Int)
    (hstep : ∀ acc r, step acc r =
      ⟨acc.total + contrib r, (cap r).getD acc.captain_points⟩) :
    ∀ (l : List RosterEntry) (acc : CalcAcc),
      (l.foldl step acc).captain_points =
        (lastAssign cap l).getD acc.captain_points := by
  intro l
  induction l with
  | nil => intro acc; simp [lastAssign]
  | cons r rs ih =>
    intro acc
    simp only [List.foldl_cons, hstep, ih, lastAssign]
    cases h : lastAssign cap rs with
    | some v => simp
    | none => cases hr : cap r <;> simp

/-- Structural characterization of the database procedure: per-row
contributions summed, plus either a doubled captain score (when the loop
left captain_points positive) or the single vice-captain fallback bonus. -/
theorem calc_sql_characterized (roster : List RosterEntry)
    (scores : ScoreTable) (gw : Nat) :
    calculate_fantasy_team_points roster scores gw =
      (roster.map (contribSql roster scores gw)).sum +
        (if 0 < captainEffectiveScore roster scores gw then
          captainEffectiveScore roster scores gw
         else vcFallbackBonus roster scores gw) := by
  have ht := foldl_total_eq _ _ _ (sqlLoopStep_eq roster scores gw) roster ⟨0, 0⟩
  have hc := foldl_cap_eq _ _ _ (sqlLoopStep_eq roster scores gw) roster ⟨0, 0⟩
  unfold calculate_fantasy_team_points
  dsimp only
  rw [ht, hc]
  unfold captainEffectiveScore vcFallbackBonus
  cases hl : lastAssign (capAssignSql roster scores gw) roster with
  | none =>
    dsimp only [Option.getD_none]
    simp only [gt_iff_lt, lt_irrefl, if_false]
    cases hvc : viceCaptainId roster with
    | none => dsimp only; omega
    | some vid =>
      dsimp only
      cases hs : lookupScore scores vid gw with
      | none => dsimp only; omega
      | some s =>
        dsimp only
        by_cases hp : 0 < s.total_points <;> simp only [hp, if_true, if_false] <;> omega
  | some v =>
    dsimp only [Option.getD_some]
    simp only [gt_iff_lt]
    by_cases hv : 0 < v
    · simp only [hv, if_true]
      omega
    · simp only [hv, if_false]
      cases hvc : viceCaptainId roster with
      | none => dsimp only; omega
      | some vid =>
        dsimp only
        cases hs : lookupScore scores vid gw with
        | none => dsimp only; omega
        | some s =>
          dsimp only
          by_cases hp : 0 < s.total_points <;> simp only [hp, if_true, if_false] <;> omega

/-- Structural characterization of the client-side manual fallback:
per-row contributions summed, plus the final captainPoints value added
unconditionally (no positivity check, no vice-captain fallback). -/
theorem calc_manual_characterized (roster : List RosterEntry)
    (scores : ScoreTable) (gw : Nat) :
    calculateTeamPointsManual roster scores gw =
      (roster.map (contribManual roster scores gw)).sum +
        manualCaptainScore roster scores gw := by
  have ht := foldl_total_eq _ _ _ (manualLoopStep_eq roster scores gw) roster ⟨0, 0⟩
  have hc := foldl_cap_eq _ _ _ (manualLoopStep_eq roster scores gw) roster ⟨0, 0⟩
  unfold calculateTeamPointsManual manualCaptainScore
  dsimp only
  rw [ht, hc]
  dsimp only
  omega

/-- C3 counterexample: the captain (player 1) played 90 minutes, so per the
claim the vice-captain fallback must not fire and the captaincy bonus is the
captain score added a second time, giving 5 + 0 = 5.  The code checks
captain_points > 0, not whether the captain played: it falls back to the
vice captain (5 points) and returns 10. -/
theorem C3_counterexample :
    scoreMinutes scores3 1 1 = 90
    ∧ calculate_fantasy_team_points roster3 scores3 1 = 10
    ∧ (roster3.map (contribSql roster3 scores3 1)).sum
        + captainEffectiveScore roster3 scores3 1 = 5
    ∧ (10 : Int) ≠ 5 := by
  refine ⟨by decide, by decide, by decide, by decide⟩

/-- C3 amended: the database procedure adds the captaincy bonus as follows:
when the loop-computed captain score (own points if the captain started and
played, the substitute points if the captain was substituted, untouched 0
otherwise) is positive it is added a second time; in every other case —
including a captain who played with a non-positive score — the vice-captain
fallback fires and adds the vice captain score-row points once, when those
are positive. -/
theorem C3_amended :
    ∀ (roster : List RosterEntry) (scores : ScoreTable) (gw : Nat),
      calculate_fantasy_team_points roster scores gw =
        (roster.map (contribSql roster scores gw)).sum +
          (if 0 < captainEffectiveScore roster scores gw then
            captainEffectiveScore roster scores gw
           else vcFallbackBonus roster scores gw) := by
  intro roster scores gw
  exact calc_sql_characterized roster scores gw

/-- C2 amended: the database procedure does not mark bench players as used:
the loop total is a sum of per-starter contributions in which every
non-playing starter runs the same independent substitute query over the full
bench, so two non-playing starters of the same position receive the points
of the same substitute. -/
theorem C2_amended :
    ∀ (roster : List RosterEntry) (scores : ScoreTable) (gw : Nat),
      ((roster.foldl (sqlLoopStep roster scores gw) ⟨0, 0⟩).total
        = (roster.map (contribSql roster scores gw)).sum)
      ∧ ∀ r1, r1 ∈ roster → ∀ r2, r2 ∈ roster →
          r1.is_starter = true → r2.is_starter = true →
          r1.position = r2.position →
          scoreMinutes scores r1.player_id gw = 0 →
          scoreMinutes scores r2.player_id gw = 0 →
          contribSql roster scores gw r1 = contribSql roster scores gw r2 := by
  intro roster scores gw
  constructor
  · have ht := foldl_total_eq _ _ _ (sqlLoopStep_eq roster scores gw) roster ⟨0, 0⟩
    simpa using ht
  · intro r1 _ r2 _ hs1 hs2 hpos hm1 hm2
    unfold contribSql
    rw [hs1, hs2, hm1, hm2, hpos]
    simp

/-- C2 witness: in roster2 both starting forwards did not play; their
contributions coincide (both are the 5 points of the single bench forward). -/
theorem C2_witness :
    contribSql roster2 scores2 1 ⟨1, Position.FWD, true, false, false⟩
      = contribSql roster2 scores2 1 ⟨2, Position.FWD, true, false, false⟩ := by
  exact (C2_amended roster2 scores2 1).2
    ⟨1, Position.FWD, true, false, false⟩ (by decide)
    ⟨2, Position.FWD, true, false, false⟩ (by decide)
    (by decide) (by decide) (by decide) (by decide) (by decide)

/-- C8 counterexample: on roster3 (captain played with 0 points, vice
captain scored 5) the database procedure returns 10 while the client-side
manual fallback returns 5, so the two implementations are not equivalent. -/
theorem C8_counterexample :
    calculate_fantasy_team_points roster3 scores3 1 = 10
    ∧ calculateTeamPointsManual roster3 scores3 1 = 5
    ∧ (10 : Int) ≠ 5 := by
  refine ⟨by decide, by decide, by decide⟩

theorem lastAssign_congr (f g : RosterEntry → Option Int) :
    ∀ l : List RosterEntry, (∀ r ∈ l, f r = g r) →
      lastAssign f l = lastAssign g l := by
  intro l
  induction l with
  | nil => intro _; rfl
  | cons r rs ih =>
    intro h
    unfold lastAssign
    rw [ih (fun x hx => h x (List.mem_cons_of_mem r hx)), h r (List.mem_cons_self r rs)]

/-- C8 amended: the two team points implementations are not equivalent in
general, but they agree whenever every starter played (no substitution is
needed) and the loop-assigned captain score is positive (the doubling branch
fires in both, and the vice-captain fallback of the database procedure stays
dormant). -/
theorem C8_amended :
    ∀ (roster : List RosterEntry) (scores : ScoreTable) (gw : Nat),
      (∀ r ∈ roster, r.is_starter = true → 0 < scoreMinutes scores r.player_id gw) →
      0 < captainEffectiveScore roster scores gw →
      calculate_fantasy_team_points roster scores gw
        = calculateTeamPointsManual roster scores gw := by
  intro roster scores gw h1 hcap
  have hcontrib : ∀ r ∈ roster,
      contribSql roster scores gw r = contribManual roster scores gw r := by
    intro r hr
    unfold contribSql contribManual
    by_cases hs : r.is_starter
    · have hm : scoreMinutes scores r.player_id gw ≠ 0 :=
        Nat.pos_iff_ne_zero.mp (h1 r hr hs)
      simp [hs, hm]
    · simp [hs]
  have hassign : ∀ r ∈ roster,
      capAssignSql roster scores gw r = capAssignManual roster scores gw r := by
    intro r hr
    unfold capAssignSql capAssignManual
    by_cases hs : r.is_starter
    · have hm : scoreMinutes scores r.player_id gw ≠ 0 :=
        Nat.pos_iff_ne_zero.mp (h1 r hr hs)
      simp [hs, hm]
    · simp [hs]
  have hK : manualCaptainScore roster scores gw = captainEffectiveScore roster scores gw := by
    unfold manualCaptainScore captainEffectiveScore
    rw [lastAssign_congr _ _ roster (fun r hr => (hassign r hr).symm)]
  rw [calc_sql_characterized, calc_manual_characterized, hK,
    List.map_congr_left hcontrib, if_pos hcap]

/-- C8 witness: a single-row roster whose starting captain played and scored
positively; both implementations return 14. -/
theorem C8_witness :
    calculate_fantasy_team_points [⟨1, Position.FWD, true, true, false⟩]
        [((1, 1), ⟨7, 90⟩)] 1
      = calculateTeamPointsManual [⟨1, Position.FWD, true, true, false⟩]
        [((1, 1), ⟨7, 90⟩)] 1 := by
  exact C8_amended [⟨1, Position.FWD, true, true, false⟩] [((1, 1), ⟨7, 90⟩)] 1
    (by decide) (by decide)

theorem betterSub_none (scores : ScoreTable) (gw : Nat) (x : RosterEntry) :
    betterSub scores gw none x = some x := rfl

theorem betterSub_some (scores : ScoreTable) (gw : Nat) (b x : RosterEntry) :
    betterSub scores gw (some b) x =
      (if scorePoints scores x.player_id gw > scorePoints scores b.player_id gw
       then some x else some b) := rfl

theorem betterSub_fold_some_isSome (scores : ScoreTable) (gw : Nat) :
    ∀ (l : List RosterEntry) (b : RosterEntry),
      (l.foldl (betterSub scores gw) (some b)).isSome = true := by
  intro l
  induction l with
  | nil => intro b; rfl
  | cons x xs ih =>
    intro b
    simp only [List.foldl_cons, betterSub_some]
    by_cases hgt : scorePoints scores x.player_id gw > scorePoints scores b.player_id gw
    · rw [if_pos hgt]; exact ih x
    · rw [if_neg hgt]; exact ih b

theorem betterSub_fold_mem (scores : ScoreTable) (gw : Nat) :
    ∀ (l : List RosterEntry) (acc : Option RosterEntry) (r : RosterEntry),
      l.foldl (betterSub scores gw) acc = some r → acc = some r ∨ r ∈ l := by
  intro l
  induction l with
  | nil => intro acc r h; exact Or.inl h
  | cons x xs ih =>
    intro acc r h
    simp only [List.foldl_cons] at h
    rcases ih (betterSub scores gw acc x) r h with hacc | hmem
    · cases acc with
      | none =>
        rw [betterSub_none] at hacc
        exact Or.inr (by rw [← Option.some.inj hacc]; exact List.mem_cons_self x xs)
      | some b =>
        rw [betterSub_some] at hacc
        by_cases hgt : scorePoints scores x.player_id gw > scorePoints scores b.player_id gw
        · rw [if_pos hgt] at hacc
          exact Or.inr (by rw [← Option.some.inj hacc]; exact List.mem_cons_self x xs)
        · rw [if_neg hgt] at hacc
          exact Or.inl hacc
    · exact Or.inr (List.mem_cons_of_mem x hmem)

theorem betterSub_fold_acc_le (scores : ScoreTable) (gw : Nat) :
    ∀ (l : List RosterEntry) (b r : RosterEntry),
      l.foldl (betterSub scores gw) (some b) = some r →
      scorePoints scores b.player_id gw ≤ scorePoints scores r.player_id gw := by
  intro l
  induction l with
  | nil =>
    intro b r h
    rw [Option.some.inj h]
  | cons x xs ih =>
    intro b r h
    simp only [List.foldl_cons, betterSub_some] at h
    by_cases hgt : scorePoints scores x.player_id gw > scorePoints scores b.player_id gw
    · rw [if_pos hgt] at h
      exact le_of_lt (lt_of_lt_of_le hgt (ih x r h))
    · rw [if_neg hgt] at h
      exact ih b r h

theorem betterSub_fold_ge (scores : ScoreTable) (gw : Nat) :
    ∀ (l : List RosterEntry) (acc : Option RosterEntry) (r x : RosterEntry),
      l.foldl (betterSub scores gw) acc = some r → x ∈ l →
      scorePoints scores x.player_id gw ≤ scorePoints scores r.player_id gw := by
  intro l
  induction l with
  | nil => intro acc r x _ hx; exact absurd hx (List.not_mem_nil x)
  | cons y ys ih =>
    intro acc r x h hx
    simp only [List.foldl_cons] at h
    rcases List.mem_cons.mp hx with hxy | hxs
    · subst hxy
      cases acc with
      | none =>
        rw [betterSub_none] at h
        exact betterSub_fold_acc_le scores gw ys x r h
      | some b =>
        rw [betterSub_some] at h
        by_cases hgt : scorePoints scores x.player_id gw > scorePoints scores b.player_id gw
        · rw [if_pos hgt] at h
          exact betterSub_fold_acc_le scores gw ys x r h
        · rw [if_neg hgt] at h
          exact le_trans (not_lt.mp hgt) (betterSub_fold_acc_le scores gw ys b r h)
    · exact ih (betterSub scores gw acc y) r x h hxs

/-- C1 amended: in the database procedure the substitute used for a
non-playing starter is not the first-listed eligible bench player but an
eligible bench player (same position, minutes played) of maximal
total_points, and one exists whenever any bench player is eligible; in the
client-side manual fallback only the first-listed bench player of the same
position is consulted at all, its score counting only when that single
candidate played, and the per-starter contributions so obtained (with the
substitute score replacing the starter score) sum to the loop total. -/
theorem C1_amended :
    ∀ (roster : List RosterEntry) (scores : ScoreTable) (gw : Nat) (pos : Position),
      (∀ r, chooseSubSql roster scores gw pos = some r →
        (r ∈ roster ∧ isEligibleSub scores gw pos r = true)
        ∧ ∀ r', r' ∈ roster → isEligibleSub scores gw pos r' = true →
            scorePoints scores r'.player_id gw ≤ scorePoints scores r.player_id gw)
      ∧ ((∃ r', r' ∈ roster ∧ isEligibleSub scores gw pos r' = true) →
          (chooseSubSql roster scores gw pos).isSome = true)
      ∧ calculateTeamPointsManual roster scores gw
          = (roster.map (contribManual roster scores gw)).sum
            + manualCaptainScore roster scores gw := by
  intro roster scores gw pos
  refine ⟨?_, ?_, calc_manual_characterized roster scores gw⟩
  · intro r h
    unfold chooseSubSql at h
    constructor
    · rcases betterSub_fold_mem scores gw _ none r h with hnone | hmem
      · exact absurd hnone (by simp)
      · exact And.intro (List.mem_of_mem_filter hmem) (List.of_mem_filter hmem)
    · intro r' hr' helig
      exact betterSub_fold_ge scores gw _ none r r' h
        (List.mem_filter.mpr ⟨hr', helig⟩)
  · rintro ⟨r', hr', helig⟩
    unfold chooseSubSql
    cases hf : roster.filter (isEligibleSub scores gw pos) with
    | nil =>
      exact absurd (hf ▸ List.mem_filter.mpr ⟨hr', helig⟩) (List.not_mem_nil r')
    | cons x xs =>
      simp only [List.foldl_cons, betterSub_none]
      exact betterSub_fold_some_isSome scores gw xs x

/-- C1 witness: on roster1 the chosen substitute is player 3, and the claim
candidate player 2 (the first-listed eligible bench forward) indeed has no
larger score: 3 is at most 5. -/
theorem C1_witness :
    scorePoints scores1 2 1 ≤ scorePoints scores1 3 1 := by
  exact ((C1_amended roster1 scores1 1 Position.FWD).1
    ⟨3, Position.FWD, false, false, false⟩ (by decide)).2
    ⟨2, Position.FWD, false, false, false⟩ (by decide) (by decide)

/-- One row of the fantasy_teams table (the columns the core touches). -/
structure FantasyTeam where
  id : Nat
  league_id : Option Nat
  total_points : Int
  gameweek_points : Int
  rank : Nat
  current_gameweek : Nat
  transfers_made_this_gw : Nat
  transfers_banked : Nat
deriving DecidableEq, Repr

/-- One row of the fantasy_team_gameweek_points ledger. -/
structure LedgerRow where
  fantasy_team_id : Nat
  gameweek : Nat
  points : Int
  rank_in_league : Option Nat
deriving DecidableEq, Repr

/-- One row of the real_matches table (the columns finalize reads). -/
structure RealMatch where
  gameweek : Nat
  status : String
deriving DecidableEq, Repr

/-- One row of the gameweeks table (the columns the status functions use);
SQL NULL timestamps become Option Int. -/
structure Gameweek where
  gameweek_number : Nat
  status : String
  is_current : Bool
  is_next : Bool
  deadline_time : Option Int
  start_time : Option Int
  end_time : Option Int
deriving DecidableEq, Repr

/-- The database state finalize_gameweek operates on: tables as lists in row
order, rosters keyed per fantasy team. -/
structure DBState where
  real_matches : List RealMatch
  gameweeks : List Gameweek
  teams : List FantasyTeam
  rosters : List (Nat × List RosterEntry)
  scores : ScoreTable
  ledger : List LedgerRow
deriving DecidableEq, Repr

/-- Roster rows of one fantasy team, in listing order. -/
def rosterOf (rosters : List (Nat × List RosterEntry)) (tid : Nat) :
    List RosterEntry :=
  ((rosters.find? (fun p => p.1 == tid)).map (fun p => p.2)).getD []

/-- calculate_fantasy_team_points(team, gw) as invoked by finalize. -/
def teamPointsOf (st : DBState) (gw tid : Nat) : Int :=
  calculate_fantasy_team_points (rosterOf st.rosters tid) st.scores gw

/-- The per-team UPDATE of finalize_gameweek step 2 (SQL lines 273-281):
accumulate total_points, set gameweek_points, advance current_gameweek,
reset transfers_made_this_gw, bank a transfer capped at 1 (LEAST). -/
def step2Team (st : DBState) (gw : Nat) (t : FantasyTeam) : FantasyTeam :=
  let pts := teamPointsOf st gw t.id
  { t with
    total_points := t.total_points + pts,
    gameweek_points := pts,
    current_gameweek := gw + 1,
    transfers_made_this_gw := 0,
    transfers_banked := min (t.transfers_banked + 1) 1 }

/-- INSERT ... ON CONFLICT (fantasy_team_id, gameweek) DO UPDATE SET points:
overwrite the points of an existing row, else append a new row with NULL
league rank. -/
def upsertLedger (L : List LedgerRow) (tid gw : Nat) (pts : Int) :
    List LedgerRow :=
  if L.any (fun r => r.fantasy_team_id == tid && r.gameweek == gw) then
    L.map (fun r =>
      if r.fantasy_team_id == tid && r.gameweek == gw then
        { r with points := pts }
      else r)
  else L ++ [⟨tid, gw, pts, none⟩]

/-- The ledger after finalize step 2 upserted every team in row order. -/
def step2Ledger (st : DBState) (gw : Nat) : List LedgerRow :=
  st.teams.foldl (fun L t => upsertLedger L t.id gw (teamPointsOf st gw t.id)) st.ledger

/-- Distinct non-null league ids in first-occurrence order
(SELECT DISTINCT league_id FROM fantasy_teams WHERE league_id IS NOT NULL). -/
def leaguesOf (teams : List FantasyTeam) : List Nat :=
  (teams.filterMap (fun t => t.league_id)).dedup

/-- Insertion step of a descending sort by an integer key. -/
def insertDesc (key : α → Int) (x : α) : List α → List α
  | [] => [x]
  | y :: ys => if key y < key x then x :: y :: ys else y :: insertDesc key x ys

/-- Descending sort by an integer key, modelling ORDER BY key DESC; the SQL
leaves the order of ties unspecified, this model keeps ties stable. -/
def sortDesc (key : α → Int) (l : List α) : List α :=
  l.foldr (insertDesc key) []

/-- Member teams of a league joined with their ledger row for the gameweek,
ordered by ledger points descending (the inner query of finalize step 3). -/
def leagueOrder (teams : List FantasyTeam) (L : List LedgerRow) (gw lid : Nat) :
    List Nat :=
  (sortDesc (fun p => p.2)
    (teams.filterMap (fun t =>
      if t.league_id == some lid then
        (L.find? (fun r => r.fantasy_team_id == t.id && r.gameweek == gw)).map
          (fun r => (t.id, r.points))
      else none))).map (fun p => p.1)

/-- UPDATE fantasy_team_gameweek_points SET rank_in_league for one team. -/
def setLeagueRank (gw : Nat) (L : List LedgerRow) (tid rk : Nat) :
    List LedgerRow :=
  L.map (fun r =>
    if r.fantasy_team_id == tid && r.gameweek == gw then
      { r with rank_in_league := some rk }
    else r)

/-- Write ranks 1, 2, ... onto the ledger rows of the given team ids. -/
def applyLeagueRanks (gw : Nat) (L : List LedgerRow) (ordered : List Nat) :
    List LedgerRow :=
  ordered.enum.foldl (fun acc p => setLeagueRank gw acc p.2 (p.1 + 1)) L

/-- Finalize step 3 (SQL lines 284-302): per league, rank member teams by
this gameweek ledger points descending and write rank_in_league. -/
def step3Ledger (teams : List FantasyTeam) (gw : Nat) (L : List LedgerRow) :
    List LedgerRow :=
  (leaguesOf teams).foldl
    (fun acc lid => applyLeagueRanks gw acc (leagueOrder teams acc gw lid)) L

/-- Finalize step 4 (SQL lines 304-316): rank all teams by total_points
descending and write each rank field. -/
def step4Teams (teams : List FantasyTeam) : List FantasyTeam :=
  let ordered := (sortDesc (fun t => t.total_points) teams).map (fun t => t.id)
  ordered.enum.foldl
    (fun ts p => ts.map (fun t => if t.id == p.2 then { t with rank := p.1 + 1 } else t))
    teams

/-- Embeds finalize_gameweek (SQL migration, lines 239-323).  The guard runs
before any write; on failure the exception aborts the transaction, so the
error case carries no state.  Step 2 folds over teams in row order; the
league and global rankings then run over the updated tables, and the
gameweek row is marked finalized. -/
def finalize_gameweek (gw : Nat) (st : DBState) : Except String DBState :=
  if st.real_matches.any (fun m => m.gameweek == gw && m.status != "completed") then
    Except.error "Cannot finalize gameweek. Not all matches are completed."
  else
    let teams2 := st.teams.map (step2Team st gw)
    let ledger3 := step3Ledger teams2 gw (step2Ledger st gw)
    let teams4 := step4Teams teams2
    let gws :=
      st.gameweeks.map (fun g =>
        if g.gameweek_number == gw then { g with status := "finalized" } else g)
    Except.ok { st with teams := teams4, ledger := ledger3, gameweeks := gws }

/-- Minimum of a list of naturals, none when empty (MIN aggregate). -/
def minNat? (l : List Nat) : Option Nat :=
  l.foldl
    (fun acc n =>
      match acc with
      | none => some n
      | some m => some (Nat.min m n))
    none

/-- SQL comparison current_time >= start_time AND current_time <= end_time:
a NULL bound makes the comparison not-true and excludes the row. -/
def liveCond (now : Int) (g : Gameweek) : Bool :=
  (match g.start_time with
   | some s => decide (s ≤ now)
   | none => false)
  && (match g.end_time with
      | some e => decide (now ≤ e)
      | none => false)

/-- The CASE expression of the status UPDATE in update_gameweek_status
(lines 176-184 of the migration adding the gameweek columns), applied to
rows whose three timestamps are all non-null. -/
def statusUpdate (now : Int) (g : Gameweek) : Gameweek :=
  match g.deadline_time, g.start_time, g.end_time with
  | some d, some s, some e =>
    { g with status :=
        if now < d then "upcoming"
        else if now ≥ d ∧ now < s then "locked"
        else if now ≥ s ∧ now ≤ e then "active"
        else if now > e then "finalized"
        else g.status }
  | _, _, _ => g

/-- Embeds update_gameweek_status: clear the current/next flags, flag the
lowest-numbered gameweek whose window contains now as current (else the
lowest-numbered future one), flag the lowest-numbered later gameweek as
next, then recompute every complete-window status from the clock. -/
def update_gameweek_status (now : Int) (gws : List Gameweek) : List Gameweek :=
  let gws1 : List Gameweek :=
    gws.map (fun g => { g with is_current := false, is_next := false })
  let gws2 : List Gameweek :=
    match minNat? ((gws1.filter (liveCond now)).map (fun g => g.gameweek_number)) with
    | some n =>
      gws1.map (fun g => if g.gameweek_number == n then { g with is_current := true } else g)
    | none => gws1
  let gws3 : List Gameweek :=
    if gws2.any (fun g => g.is_current) then gws2
    else
      match minNat? ((gws2.filter (fun g =>
          match g.start_time with
          | some s => decide (now < s)
          | none => false)).map (fun g => g.gameweek_number)) with
      | some n =>
        gws2.map (fun g => if g.gameweek_number == n then { g with is_current := true } else g)
      | none => gws2
  let gws4 : List Gameweek :=
    match (gws3.find? (fun g => g.is_current)).map (fun g => g.gameweek_number) with
    | some c =>
      match minNat? ((gws3.filter (fun g => decide (c < g.gameweek_number))).map
          (fun g => g.gameweek_number)) with
      | some n =>
        gws3.map (fun g => if g.gameweek_number == n then { g with is_next := true } else g)
      | none => gws3
    | none => gws3
  gws4.map (statusUpdate now)

/-- Embeds transfers_allowed: transfers are blocked exactly when some
gameweek flagged current or next has a non-null deadline that has passed. -/
def transfers_allowed (now : Int) (gws : List Gameweek) : Bool :=
  !(gws.any (fun g =>
    (g.is_current || g.is_next)
    && (match g.deadline_time with
        | some d => decide (now ≥ d)
        | none => false)))

/-- The team columns makeTransfer reads and writes. -/
structure TeamTransferState where
  budget_remaining : Int
  transfers_made_this_gw : Nat
  current_gameweek : Nat
deriving DecidableEq, Repr

/-- One row of the transactions table as appended by makeTransfer. -/
structure TransactionRow where
  player_id : Nat
  transaction_type : String
  gameweek : Nat
  price : Int
deriving DecidableEq, Repr

/-- The state makeTransfer mutates: the team row, the targeted roster slot
and the transactions table. -/
structure TransferDB where
  team : TeamTransferState
  slot_player_id : Nat
  slot_purchase_price : Int
  transactions : List TransactionRow
deriving DecidableEq, Repr

/-- Embeds makeTransfer of the useTransfers hook: guard on transfers
remaining and on the transfer window, look up both player prices, reject on
insufficient budget before any mutation, else update the roster slot, the
team budget and transfer count, and append the two ledger transactions
(the JS team.current_gameweek || 1 maps a 0 gameweek to 1). -/
def makeTransfer (transfersRemaining : Nat) (canMakeTransfers : Bool)
    (players : List (Nat × Int)) (outId inId : Nat) (db : TransferDB) :
    Bool × TransferDB :=
  if transfersRemaining = 0 then (false, db)
  else if canMakeTransfers = false then (false, db)
  else
    match players.find? (fun p => p.1 == outId), players.find? (fun p => p.1 == inId) with
    | some op, some ip =>
      let priceDifference := ip.2 - op.2
      let newBudget := db.team.budget_remaining - priceDifference
      if newBudget < 0 then (false, db)
      else
        let gwTag := if db.team.current_gameweek = 0 then 1 else db.team.current_gameweek
        (true,
         { team :=
            { budget_remaining := newBudget,
              transfers_made_this_gw := db.team.transfers_made_this_gw + 1,
              current_gameweek := db.team.current_gameweek },
           slot_player_id := inId,
           slot_purchase_price := ip.2,
           transactions := db.transactions ++
             [⟨outId, "transfer_out", gwTag, op.2⟩, ⟨inId, "transfer_in", gwTag, ip.2⟩] })
    | _, _ => (false, db)

/-- Team row lookup by id. -/
def findTeam (teams : List FantasyTeam) (tid : Nat) : Option FantasyTeam :=
  teams.find? (fun t => t.id == tid)

/-- Ledger points of a team for a gameweek, none when the row is absent. -/
def ledgerPoints (L : List LedgerRow) (tid gw : Nat) : Option Int :=
  (L.find? (fun r => r.fantasy_team_id == tid && r.gameweek == gw)).map
    (fun r => r.points)

/-- total_points of a team in a finalize result, none on error or absence. -/
def okTeamTotal (res : Except String DBState) (tid : Nat) : Option Int :=
  match res with
  | Except.ok s => (findTeam s.teams tid).map (fun t => t.total_points)
  | Except.error _ => none

/-- Ledger points of a team in a finalize result. -/
def okLedgerPoints (res : Except String DBState) (tid gw : Nat) : Option Int :=
  match res with
  | Except.ok s => ledgerPoints s.ledger tid gw
  | Except.error _ => none

/-- A one-team database in which gameweek 1 is ready to finalize: the single
completed match, one team whose lone starter scored 5 points. -/
def ex5 : DBState :=
  { real_matches := [⟨1, "completed"⟩],
    gameweeks := [],
    teams := [⟨1, none, 0, 0, 0, 1, 0, 0⟩],
    rosters := [(1, [⟨1, Position.FWD, true, false, false⟩])],
    scores := [((1, 1), ⟨5, 90⟩)],
    ledger := [] }

/-- C5 counterexample: finalizing ex5 once gives the team 5 total points and
a ledger row of 5; running finalize again on the already-finalized gameweek
leaves the ledger row at 5 (the upsert is idempotent) but re-applies the
additive total_points accumulation, raising the total to 10 — contradicting
the claim that the accumulation is not applied a second time. -/
theorem C5_counterexample :
    okTeamTotal (finalize_gameweek 1 ex5) 1 = some 5
    ∧ okTeamTotal ((finalize_gameweek 1 ex5).bind (finalize_gameweek 1)) 1 = some 10
    ∧ okLedgerPoints (finalize_gameweek 1 ex5) 1 1 = some 5
    ∧ okLedgerPoints ((finalize_gameweek 1 ex5).bind (finalize_gameweek 1)) 1 1 = some 5
    ∧ some (10 : Int) ≠ some (5 : Int) := by
  refine ⟨by decide, by decide, by decide, by decide, by decide⟩

/-- C6: finalize_gameweek raises before any write when some match of the
gameweek is not completed — the error case carries no successor state — and
returns a new state when every match of the gameweek is completed. -/
theorem C6_theorem :
    ∀ (gw : Nat) (st : DBState),
      ((∃ m, m ∈ st.real_matches ∧ m.gameweek = gw ∧ m.status ≠ "completed") →
        finalize_gameweek gw st =
          Except.error "Cannot finalize gameweek. Not all matches are completed.")
      ∧ ((∀ m, m ∈ st.real_matches → m.gameweek = gw → m.status = "completed") →
        ∃ st', finalize_gameweek gw st = Except.ok st') := by
  intro gw st
  constructor
  · rintro ⟨m, hm, hgw, hst⟩
    have hany : st.real_matches.any
        (fun m => m.gameweek == gw && m.status != "completed") = true := by
      rw [List.any_eq_true]
      exact ⟨m, hm, by simp [hgw, hst]⟩
    unfold finalize_gameweek
    rw [if_pos hany]
  · intro h
    have hany : st.real_matches.any
        (fun m => m.gameweek == gw && m.status != "completed") = false := by
      rw [Bool.eq_false_iff]
      intro hc
      rw [List.any_eq_true] at hc
      obtain ⟨m, hm, hp⟩ := hc
      rw [Bool.and_eq_true, beq_iff_eq, bne_iff_ne] at hp
      exact hp.2 (h m hm hp.1)
    unfold finalize_gameweek
    rw [if_neg (by simp [hany])]
    exact ⟨_, rfl⟩

/-- A database whose only match of gameweek 1 is still scheduled. -/
def c6Bad : DBState :=
  { real_matches := [⟨1, "scheduled"⟩],
    gameweeks := [],
    teams := [],
    rosters := [],
    scores := [],
    ledger := [] }

/-- C6 witness: the scheduled match blocks finalize on c6Bad with the
precondition error, while ex5 (all matches completed) finalizes. -/
theorem C6_witness :
    finalize_gameweek 1 c6Bad =
      Except.error "Cannot finalize gameweek. Not all matches are completed."
    ∧ ∃ st', finalize_gameweek 1 ex5 = Except.ok st' :=
  ⟨(C6_theorem 1 c6Bad).1 ⟨⟨1, "scheduled"⟩, by decide, by decide, by decide⟩,
   (C6_theorem 1 ex5).2 (by decide)⟩

/-- A gameweek already finalized whose window lies in the future. -/
def c7Gameweek : Gameweek :=
  ⟨1, "finalized", false, false, some 100, some 200, some 300⟩

/-- C7: at time 50, before the deadline of this already-finalized gameweek,
the time-based recomputation of update_gameweek_status overwrites the
terminal finalized status with upcoming: the CASE expression has no guard
for finalized rows, so a finalization performed before end_time (which the
finalize gate permits) is undone by the next status refresh. -/
theorem C7_bug :
    c7Gameweek.status = "finalized"
    ∧ (update_gameweek_status 50 [c7Gameweek]).map (fun g => g.status) = ["upcoming"]
    ∧ ("upcoming" : String) ≠ "finalized" := by
  refine ⟨by decide, by decide, by decide⟩

/-- C9: whenever the price difference exceeds the remaining budget, the
budget guard of makeTransfer fires before any mutation: the call fails and
returns the state unchanged (roster slot, budget, transactions untouched). -/
theorem C9_theorem :
    ∀ (transfersRemaining : Nat) (canMakeTransfers : Bool)
      (players : List (Nat × Int)) (outId inId : Nat) (db : TransferDB)
      (op ip : Nat × Int),
      players.find? (fun p => p.1 == outId) = some op →
      players.find? (fun p => p.1 == inId) = some ip →
      db.team.budget_remaining < ip.2 - op.2 →
      makeTransfer transfersRemaining canMakeTransfers players outId inId db
        = (false, db) := by
  intro tr cmk players outId inId db op ip h1 h2 hb
  unfold makeTransfer
  by_cases htr : tr = 0
  · rw [if_pos htr]
  · rw [if_neg htr]
    cases cmk with
    | false => rw [if_pos rfl]
    | true =>
      rw [if_neg (by simp)]
      rw [h1, h2]
      dsimp only
      rw [if_pos (by omega)]

/-- C9 witness: selling a 5-priced player for a 100-priced one with budget
10 fails and leaves the transfer state unchanged. -/
theorem C9_witness :
    makeTransfer 1 true [(1, 5), (2, 100)] 1 2 ⟨⟨10, 0, 1⟩, 1, 5, []⟩
      = (false, ⟨⟨10, 0, 1⟩, 1, 5, []⟩) :=
  C9_theorem 1 true [(1, 5), (2, 100)] 1 2 ⟨⟨10, 0, 1⟩, 1, 5, []⟩
    (1, 5) (2, 100) (by decide) (by decide) (by decide)

/-- C10: when every gameweek flagged current or next has no deadline set
(which in particular covers the case of no flagged gameweek at all), the
deadline-passed query finds no row and transfers_allowed returns true. -/
theorem C10_theorem :
    ∀ (now : Int) (gws : List Gameweek),
      (∀ g, g ∈ gws → (g.is_current = true ∨ g.is_next = true) →
        g.deadline_time = none) →
      transfers_allowed now gws = true := by
  intro now gws h
  unfold transfers_allowed
  cases hany : gws.any (fun g =>
      (g.is_current || g.is_next)
      && (match g.deadline_time with
          | some d => decide (now ≥ d)
          | none => false)) with
  | false => rfl
  | true =>
    rw [List.any_eq_true] at hany
    obtain ⟨g, hg, hp⟩ := hany
    rw [Bool.and_eq_true, Bool.or_eq_true] at hp
    rw [h g hg hp.1] at hp
    exact absurd hp.2 (by simp)

/-- C10 witness: a single current gameweek with a NULL deadline leaves
transfers allowed. -/
theorem C10_witness :
    transfers_allowed 0 [⟨1, "upcoming", true, false, none, none, none⟩] = true :=
  C10_theorem 0 [⟨1, "upcoming", true, false, none, none, none⟩] (by decide)

theorem find?_map_general {α β : Type} (f : α → β) (p : β → Bool) :
    ∀ l : List α, (l.map f).find? p = (l.find? (fun a => p (f a))).map f := by
  intro l
  induction l with
  | nil => rfl
  | cons a l ih =>
    simp only [List.map_cons, List.find?]
    cases hp : p (f a) with
    | true => rfl
    | false => exact ih

theorem foldl_preserve_proj {β γ δ : Type} (step : γ → β → γ) (proj : γ → δ)
    (h : ∀ acc b, proj (step acc b) = proj acc) :
    ∀ (l : List β) (acc : γ), proj (l.foldl step acc) = proj acc := by
  intro l
  induction l with
  | nil => intro acc; rfl
  | cons b l ih =>
    intro acc
    rw [List.foldl_cons, ih, h]

theorem find?_append_or {α : Type} (p : α → Bool) :
    ∀ l1 l2 : List α, (l1 ++ l2).find? p =
      match l1.find? p with
      | some a => some a
      | none => l2.find? p := by
  intro l1 l2
  induction l1 with
  | nil => rfl
  | cons a l ih =>
    simp only [List.cons_append, List.find?]
    cases hp : p a with
    | true => rfl
    | false => exact ih

/-- A team row with the rank field blanked; the global-ranking pass of
finalize writes only this field. -/
def eraseRank (t : FantasyTeam) : FantasyTeam :=
  { t with rank := 0 }

/-- A ledger row with rank_in_league blanked; the league-ranking pass of
finalize writes only this field. -/
def eraseLR (r : LedgerRow) : LedgerRow :=
  { r with rank_in_league := none }

/-- Every team field except the rank written by global ranking. -/
def teamData (t : FantasyTeam) :
    Nat × Option Nat × Int × Int × Nat × Nat × Nat :=
  (t.id, t.league_id, t.total_points, t.gameweek_points,
   t.current_gameweek, t.transfers_made_this_gw, t.transfers_banked)

theorem step4Teams_erase (ts : List FantasyTeam) :
    (step4Teams ts).map eraseRank = ts.map eraseRank := by
  unfold step4Teams
  dsimp only
  refine foldl_preserve_proj _ (List.map eraseRank) ?_ _ ts
  intro acc p
  rw [List.map_map]
  refine List.map_congr_left ?_
  intro t _
  by_cases h : t.id == p.2 <;> simp [Function.comp, h, eraseRank]

theorem setLeagueRank_erase (gw : Nat) (L : List LedgerRow) (tid rk : Nat) :
    (setLeagueRank gw L tid rk).map eraseLR = L.map eraseLR := by
  unfold setLeagueRank
  rw [List.map_map]
  refine List.map_congr_left ?_
  intro r _
  by_cases h : r.fantasy_team_id == tid && r.gameweek == gw <;>
    simp [Function.comp, h, eraseLR]

theorem applyLeagueRanks_erase (gw : Nat) (L : List LedgerRow) (ordered : List Nat) :
    (applyLeagueRanks gw L ordered).map eraseLR = L.map eraseLR := by
  unfold applyLeagueRanks
  refine foldl_preserve_proj _ (List.map eraseLR) ?_ _ L
  intro acc p
  exact setLeagueRank_erase gw acc p.2 (p.1 + 1)

theorem step3Ledger_erase (teams : List FantasyTeam) (gw : Nat) (L : List LedgerRow) :
    (step3Ledger teams gw L).map eraseLR = L.map eraseLR := by
  unfold step3Ledger
  refine foldl_preserve_proj _ (List.map eraseLR) ?_ _ L
  intro acc lid
  exact applyLeagueRanks_erase gw acc (leagueOrder teams acc gw lid)

theorem ledgerPoints_of_erase_eq (L1 L2 : List LedgerRow)
    (h : L1.map eraseLR = L2.map eraseLR) :
    ∀ tid gw, ledgerPoints L1 tid gw = ledgerPoints L2 tid gw := by
  intro tid gw
  unfold ledgerPoints
  have h1 := congrArg
    (List.find? (fun r => r.fantasy_team_id == tid && r.gameweek == gw)) h
  rw [find?_map_general, find?_map_general] at h1
  have h2 := congrArg (Option.map (fun r : LedgerRow => r.points)) h1
  rw [Option.map_map, Option.map_map] at h2
  exact h2

theorem upsert_ledgerPoints (L : List LedgerRow) (tid0 gw0 : Nat) (pts : Int) :
    ∀ tid gw, ledgerPoints (upsertLedger L tid0 gw0 pts) tid gw =
      if tid = tid0 ∧ gw = gw0 then some pts else ledgerPoints L tid gw := by
  intro tid gw
  unfold upsertLedger ledgerPoints
  cases hany : L.any (fun r => r.fantasy_team_id == tid0 && r.gameweek == gw0) with
  | true =>
    rw [if_pos rfl, find?_map_general]
    by_cases hkey : tid = tid0 ∧ gw = gw0
    · obtain ⟨h1, h2⟩ := hkey
      subst h1; subst h2
      rw [if_pos ⟨rfl, rfl⟩]
      have hfun : (fun r : LedgerRow =>
          ((if r.fantasy_team_id == tid && r.gameweek == gw then
              { r with points := pts } else r).fantasy_team_id == tid
            && (if r.fantasy_team_id == tid && r.gameweek == gw then
              { r with points := pts } else r).gameweek == gw)) =
          (fun r : LedgerRow => r.fantasy_team_id == tid && r.gameweek == gw) := by
        funext r
        by_cases h : r.fantasy_team_id == tid && r.gameweek == gw <;> simp [h]
      rw [hfun]
      rw [List.any_eq_true] at hany
      obtain ⟨r, hr, hp⟩ := hany
      have hsome : ∃ r', L.find?
          (fun r => r.fantasy_team_id == tid && r.gameweek == gw) = some r' := by
        cases hf : L.find? (fun r => r.fantasy_team_id == tid && r.gameweek == gw) with
        | none =>
          rw [List.find?_eq_none] at hf
          exact absurd hp (hf r hr)
        | some r2 => exact ⟨r2, rfl⟩
      obtain ⟨r', hf⟩ := hsome
      rw [hf]
      have hp' := List.find?_some hf
      simp only [Option.map_some']
      rw [if_pos hp']
    · rw [if_neg hkey]
      have hfun : (fun r : LedgerRow =>
          ((if r.fantasy_team_id == tid0 && r.gameweek == gw0 then
              { r with points := pts } else r).fantasy_team_id == tid
            && (if r.fantasy_team_id == tid0 && r.gameweek == gw0 then
              { r with points := pts } else r).gameweek == gw)) =
          (fun r : LedgerRow => r.fantasy_team_id == tid && r.gameweek == gw) := by
        funext r
        by_cases h : r.fantasy_team_id == tid0 && r.gameweek == gw0 <;> simp [h]
      rw [hfun]
      cases hf : L.find? (fun r => r.fantasy_team_id == tid && r.gameweek == gw) with
      | none => rfl
      | some r' =>
        have hq := List.find?_some hf
        rw [Bool.and_eq_true, beq_iff_eq, beq_iff_eq] at hq
        have hq0 : (r'.fantasy_team_id == tid0 && r'.gameweek == gw0) = false := by
          rw [Bool.and_eq_false_iff]
          by_cases h0 : r'.fantasy_team_id = tid0
          · right
            rw [beq_eq_false_iff_ne]
            intro hg
            exact hkey ⟨hq.1 ▸ h0, hq.2 ▸ hg⟩
          · left
            rw [beq_eq_false_iff_ne]
            exact h0
        simp only [Option.map_some', hq0, Bool.false_eq_true, if_false]
  | false =>
    rw [if_neg (by simp), find?_append_or]
    by_cases hkey : tid = tid0 ∧ gw = gw0
    · obtain ⟨h1, h2⟩ := hkey
      subst h1; subst h2
      rw [if_pos ⟨rfl, rfl⟩]
      have hnone : L.find? (fun r => r.fantasy_team_id == tid && r.gameweek == gw)
          = none := by
        rw [List.find?_eq_none]
        intro r hr
        rw [List.any_eq_false] at hany
        exact fun hp => hany r hr hp
      rw [hnone]
      dsimp only
      simp [List.find?]
    · rw [if_neg hkey]
      have hnew : ((⟨tid0, gw0, pts, none⟩ : LedgerRow).fantasy_team_id == tid
          && (⟨tid0, gw0, pts, none⟩ : LedgerRow).gameweek == gw) = false := by
        rw [Bool.and_eq_false_iff]
        by_cases h0 : tid0 = tid
        · right
          rw [beq_eq_false_iff_ne]
          intro hg
          exact hkey ⟨h0.symm, hg.symm⟩
        · left
          rw [beq_eq_false_iff_ne]
          exact h0
      cases hf : L.find? (fun r => r.fantasy_team_id == tid && r.gameweek == gw) with
      | none => simp [List.find?, hnew]
      | some r' => rfl

theorem upsertFold_points (gw : Nat) (ptsf : Nat → Int) :
    ∀ (ts : List FantasyTeam) (L : List LedgerRow) (tid : Nat),
      ledgerPoints
        (ts.foldl (fun L t => upsertLedger L t.id gw (ptsf t.id)) L) tid gw =
      if ts.any (fun t => t.id == tid) then some (ptsf tid)
      else ledgerPoints L tid gw := by
  intro ts
  induction ts with
  | nil => intro L tid; simp
  | cons t ts ih =>
    intro L tid
    rw [List.foldl_cons, ih, List.any_cons]
    by_cases hts : ts.any (fun t => t.id == tid) = true
    · rw [if_pos hts, if_pos (by rw [hts, Bool.or_true])]
    · rw [if_neg hts, upsert_ledgerPoints]
      by_cases hid : t.id = tid
      · rw [if_pos ⟨hid.symm, rfl⟩, hid,
          if_pos (by rw [beq_self_eq_true]; rfl)]
      · rw [if_neg (fun hc => hid hc.1.symm),
          if_neg (by
            intro hc
            rw [Bool.or_eq_true] at hc
            rcases hc with hc | hc
            · exact hid (beq_iff_eq.mp hc)
            · exact hts hc)]

theorem step2Ledger_points (st : DBState) (gw : Nat) (tid : Nat) :
    ledgerPoints (step2Ledger st gw) tid gw =
      if st.teams.any (fun t => t.id == tid) then some (teamPointsOf st gw tid)
      else ledgerPoints st.ledger tid gw := by
  unfold step2Ledger
  exact upsertFold_points gw (teamPointsOf st gw) st.teams st.ledger tid

theorem findTeam_map_pres (f : FantasyTeam → FantasyTeam)
    (hid : ∀ t, (f t).id = t.id) (ts : List FantasyTeam) (tid : Nat) :
    findTeam (ts.map f) tid = (findTeam ts tid).map f := by
  unfold findTeam
  rw [find?_map_general]
  have hfun : (fun t => (f t).id == tid) = (fun t : FantasyTeam => t.id == tid) := by
    funext t
    rw [hid]
  rw [hfun]

theorem optmap_teamData_of_erase {o1 o2 : Option FantasyTeam}
    (h : o1.map eraseRank = o2.map eraseRank) :
    o1.map teamData = o2.map teamData := by
  have h2 := congrArg (Option.map teamData) h
  rw [Option.map_map, Option.map_map] at h2
  exact h2

theorem findTeam_step4_teamData (ts : List FantasyTeam) (tid : Nat) :
    (findTeam (step4Teams ts) tid).map teamData
      = (findTeam ts tid).map teamData := by
  have h := step4Teams_erase ts
  have h1 := congrArg (List.find? (fun t : FantasyTeam => t.id == tid)) h
  rw [find?_map_general, find?_map_general] at h1
  exact optmap_teamData_of_erase h1

theorem finalize_ok_teamData (st : DBState) (gw tid : Nat) :
    (findTeam (step4Teams (st.teams.map (step2Team st gw))) tid).map teamData
      = (findTeam st.teams tid).map (fun t => teamData (step2Team st gw t)) := by
  rw [findTeam_step4_teamData,
    findTeam_map_pres (step2Team st gw) (fun t => rfl), Option.map_map]
  rfl

theorem step4Teams_any_id (ts : List FantasyTeam) (tid : Nat) :
    (step4Teams ts).any (fun t => t.id == tid)
      = ts.any (fun t => t.id == tid) := by
  have h := step4Teams_erase ts
  have h1 := congrArg (fun l : List FantasyTeam => l.any (fun t => t.id == tid)) h
  simp only [List.any_map] at h1
  exact h1

theorem map_step2_any_id (st : DBState) (gw : Nat) (ts : List FantasyTeam)
    (tid : Nat) :
    (ts.map (step2Team st gw)).any (fun t => t.id == tid)
      = ts.any (fun t => t.id == tid) := by
  rw [List.any_map]
  rfl

/-- C5 amended: re-running finalize on an already-finalized gameweek leaves
the ledger points of every team unchanged (the upsert is idempotent) and
leaves gameweek_points, current_gameweek, transfers_made_this_gw and
transfers_banked unchanged in effect (the reset and the LEAST cap are
idempotent), but it does apply the additive total_points accumulation a
second time: every team total grows by that team gameweek points again. -/
theorem C5_amended :
    ∀ (gw : Nat) (st st1 : DBState),
      finalize_gameweek gw st = Except.ok st1 →
      ∃ st2, finalize_gameweek gw st1 = Except.ok st2
        ∧ (∀ tid, ledgerPoints st2.ledger tid gw = ledgerPoints st1.ledger tid gw)
        ∧ (∀ tid, (findTeam st2.teams tid).map teamData
            = (findTeam st1.teams tid).map (fun t =>
                (t.id, t.league_id, t.total_points + t.gameweek_points,
                 t.gameweek_points, t.current_gameweek,
                 t.transfers_made_this_gw, t.transfers_banked))) := by
  intro gw st st1 h1
  unfold finalize_gameweek at h1
  by_cases hg : st.real_matches.any
      (fun m => m.gameweek == gw && m.status != "completed") = true
  · rw [if_pos hg] at h1
    exact absurd h1 (by simp)
  · rw [if_neg hg] at h1
    dsimp only at h1
    have hst1 := Except.ok.inj h1
    have hmatches : st1.real_matches = st.real_matches := by rw [← hst1]
    have hrosters : st1.rosters = st.rosters := by rw [← hst1]
    have hscores : st1.scores = st.scores := by rw [← hst1]
    have hteams : st1.teams = step4Teams (st.teams.map (step2Team st gw)) := by
      rw [← hst1]
    have hledger : st1.ledger =
        step3Ledger (st.teams.map (step2Team st gw)) gw (step2Ledger st gw) := by
      rw [← hst1]
    have hg1 : ¬ st1.real_matches.any
        (fun m => m.gameweek == gw && m.status != "completed") = true := by
      rw [hmatches]
      exact hg
    have hanyid : ∀ tid, st1.teams.any (fun t => t.id == tid)
        = st.teams.any (fun t => t.id == tid) := by
      intro tid
      rw [hteams, step4Teams_any_id, map_step2_any_id]
    have hpts : ∀ tid, teamPointsOf st1 gw tid = teamPointsOf st gw tid := by
      intro tid
      unfold teamPointsOf
      rw [hrosters, hscores]
    unfold finalize_gameweek
    rw [if_neg hg1]
    dsimp only
    refine ⟨_, rfl, ?_, ?_⟩
    · intro tid
      rw [ledgerPoints_of_erase_eq _ _
        (step3Ledger_erase (st1.teams.map (step2Team st1 gw)) gw
          (step2Ledger st1 gw)) tid gw]
      rw [step2Ledger_points st1 gw tid]
      by_cases hA : st.teams.any (fun t => t.id == tid) = true
      · rw [if_pos ((hanyid tid).trans hA), hpts tid, hledger,
          ledgerPoints_of_erase_eq _ _
            (step3Ledger_erase (st.teams.map (step2Team st gw)) gw
              (step2Ledger st gw)) tid gw,
          step2Ledger_points st gw tid, if_pos hA]
      · rw [if_neg (fun hc => hA ((hanyid tid).symm.trans hc))]
    · intro tid
      have hB2 := finalize_ok_teamData st1 gw tid
      rw [hB2]
      have hB0 := finalize_ok_teamData st gw tid
      rw [← hteams] at hB0
      cases hfind : findTeam st1.teams tid with
      | none => rfl
      | some t =>
        rw [hfind] at hB0
        simp only [Option.map_some'] at hB0 ⊢
        cases hfind0 : findTeam st.teams tid with
        | none =>
          rw [hfind0] at hB0
          exact absurd hB0 (by simp)
        | some t0 =>
          rw [hfind0] at hB0
          simp only [Option.map_some'] at hB0
          have ht := Option.some.inj hB0
          simp only [teamData, step2Team, Prod.mk.injEq] at ht
          obtain ⟨hid, hleague, htotal, hgwp, hcur, hmade, hbank⟩ := ht
          simp only [teamData, step2Team, Option.some.injEq, Prod.mk.injEq]
          have hP : teamPointsOf st1 gw t.id = teamPointsOf st gw t0.id := by
            unfold teamPointsOf
            rw [hrosters, hscores, hid]
          refine ⟨trivial, trivial, ?_, ?_, ?_, ?_, ?_⟩
          · rw [hP, ← hgwp]
          · rw [hP, ← hgwp]
          · exact hcur.symm
          · exact hmade.symm
          · rw [hbank]
            omega

/-- The state finalize_gameweek produces from ex5 in one run. -/
def ex5Final : DBState :=
  { real_matches := [⟨1, "completed"⟩],
    gameweeks := [],
    teams := [⟨1, none, 5, 5, 1, 2, 0, 1⟩],
    rosters := [(1, [⟨1, Position.FWD, true, false, false⟩])],
    scores := [((1, 1), ⟨5, 90⟩)],
    ledger := [⟨1, 1, 5, none⟩] }

/-- C5 witness: instantiating the re-run theorem on ex5 and its finalized
state ex5Final. -/
theorem C5_witness :
    ∃ st2, finalize_gameweek 1 ex5Final = Except.ok st2
      ∧ (∀ tid, ledgerPoints st2.ledger tid 1 = ledgerPoints ex5Final.ledger tid 1)
      ∧ (∀ tid, (findTeam st2.teams tid).map teamData
          = (findTeam ex5Final.teams tid).map (fun t =>
              (t.id, t.league_id, t.total_points + t.gameweek_points,
               t.gameweek_points, t.current_gameweek,
               t.transfers_made_this_gw, t.transfers_banked))) :=
  C5_amended 1 ex5 ex5Final (by rfl)
